import Mathlib

/-!
Verification development for a Telegram voice-chat music bot (`src/main.py`).

The bot keeps, per chat (session), a FIFO queue of resolved track requests,
a "now playing" slot, and two boolean flags (`is_playing`, `is_paused`).
The definitions below are a shallow embedding of the queue/playback state
manipulating parts of the Python source:

* `QueueItem`, `SessionState` embed the `QueueItem` class and the per-chat
  slices of the `MusicBot` dictionaries (`queues[chat_id]`,
  `now_playing.get(chat_id)`, `is_playing.get(chat_id)`,
  `is_paused.get(chat_id)`; a missing dictionary key reads as
  `[]` / `None` / falsy, which the embedding renders as `[]`, `none`,
  `false`).
* `play_next` embeds the `play_next` coroutine as the state transition it
  performs up to the point where it either starts streaming a track or runs
  out of queue.  The success/failure of `download_audio` is abstracted as a
  boolean oracle `fetchOk`; a failed item triggers the recursive retry of the
  source.  The `asyncio.sleep`-then-`play_next` tail of the coroutine is the
  estimated-duration timer: it is a *later* event and is modelled as a
  separate, subsequent invocation of `play_next` (exactly like the
  `stream_end_handler`, which also just calls `play_next`).
* `enqueue`/`play_command`, `pause_command`, `resume_command`,
  `skip_command`, `stop_command`, `end_command` embed the corresponding
  command handlers from the point where the session state is touched
  (chat-type checks, YouTube search, and message formatting are external).
  Transport calls (`pytgcalls`) may raise; this is abstracted as a boolean
  oracle `transportOk`, and the handlers mutate state only after the call
  returns, as in the source.
* `sleepSeconds` embeds the duration-parsing / sleep computation inside
  `play_next` (lines 749-763 of the source).
* `save_data` / `load_data` embed the JSON snapshot of the queues.  Python's
  `str` on an `int` and `int` on a `str` are embedded as `pyStr` and
  `pyParseInt` (decimal digits with an optional sign; Python's additional
  tolerance for surrounding whitespace and underscores is not exercised by
  the program, which only parses keys it wrote itself and YouTube durations).
-/

namespace MusicModel

/-- Embedding of Python `int(s)` on a digit string: fold decimal digits,
failing on any non-digit character. -/
def parseNatAux : List Char → Nat → Option Nat
  | [], acc => some acc
  | c :: cs, acc =>
    if c.isDigit then parseNatAux cs (10 * acc + (c.toNat - 48)) else none

/-- Digit-string parse; the empty string is a parse error. -/
def parseNat : List Char → Option Nat
  | [] => none
  | cs => parseNatAux cs 0

/-- Embedding of Python `int(s)`: optional single leading sign, then decimal
digits. -/
def pyParseInt (s : String) : Option Int :=
  match s.data with
  | [] => none
  | c :: cs =>
    if c = '-' then (parseNat cs).map (fun v => -(v : Int))
    else if c = '+' then (parseNat cs).map (fun v => (v : Int))
    else (parseNat (c :: cs)).map (fun v => (v : Int))

/-- Decimal digits of a natural number, most significant first. -/
def natChars (n : Nat) : List Char :=
  if n < 10 then [Char.ofNat (48 + n)]
  else natChars (n / 10) ++ [Char.ofNat (48 + n % 10)]
termination_by n
decreasing_by exact Nat.div_lt_self (by omega) (by omega)

/-- Embedding of Python `str` on an `int`. -/
def pyStr (n : Int) : String :=
  if n < 0 then ⟨'-' :: natChars n.natAbs⟩ else ⟨natChars n.natAbs⟩

/-- Embedding of Python `s.split(sep)` for a single-character separator
(`duration.split(':')` in the source). -/
def splitOnChar (sep : Char) : List Char → List (List Char)
  | [] => [[]]
  | c :: cs =>
    if c = sep then [] :: splitOnChar sep cs
    else
      match splitOnChar sep cs with
      | [] => [[c]]
      | h :: t => (c :: h) :: t

/-- `Config.MAX_QUEUE_SIZE` from the source. -/
def Config.MAX_QUEUE_SIZE : Nat := 100

/-- The `QueueItem` class: one resolved track request.  `added_at` embeds the
`datetime.now()` creation timestamp as an abstract clock value. -/
structure QueueItem where
  chat_id : Int
  title : String
  url : String
  duration : String
  requested_by : String
  added_at : Nat
deriving DecidableEq

/-- One chat's slice of the `MusicBot` state: pending queue, "now playing"
slot, and the two playback flags. -/
structure SessionState where
  queue : List QueueItem
  now_playing : Option QueueItem
  is_playing : Bool
  is_paused : Bool
deriving DecidableEq

/-- User-visible outcome of a command handler. -/
inductive CmdResult where
  | ok
  | notPlaying
  | notAuthorized
  | capacityError
  | nowPlaying
  | queuedAt (pos : Nat)
  | transportFailed
deriving DecidableEq

/-- Loop form of the `play_next` coroutine.  The list argument is the
session queue (kept equal to `s.queue` at every call).  An empty queue sets
`is_playing` to `False` and returns (leaving `now_playing` and `is_paused`
untouched, as the source does); otherwise the head is popped into the
now-playing slot and fetched; a fetch failure recurses on the rest. -/
def play_next_loop (fetchOk : QueueItem → Bool) : List QueueItem → SessionState → SessionState
  | [], s => { s with is_playing := false }
  | q :: rest, _ =>
    let s1 : SessionState := ⟨rest, some q, true, false⟩
    if fetchOk q then s1 else play_next_loop fetchOk rest s1

/-- The `play_next(chat_id)` coroutine, as the state transition it performs
before suspending on the estimated-duration sleep. -/
def play_next (fetchOk : QueueItem → Bool) (s : SessionState) : SessionState :=
  play_next_loop fetchOk s.queue s

/-- The queue-append portion of `play_command` (source lines 325-339):
reject when the queue already holds `Config.MAX_QUEUE_SIZE` items, otherwise
append at the tail. -/
def enqueue (item : QueueItem) (q : List QueueItem) : Except Unit (List QueueItem) :=
  if q.length ≥ Config.MAX_QUEUE_SIZE then Except.error () else Except.ok (q ++ [item])

/-- The `play_command` handler from the point where the query has resolved to
`item`: enqueue, then — when the branch `not is_playing.get(chat_id) or not
is_paused.get(chat_id)` holds — immediately run `play_next`. -/
def play_command (fetchOk : QueueItem → Bool) (item : QueueItem) (s : SessionState) :
    SessionState × CmdResult :=
  match enqueue item s.queue with
  | Except.error _ => (s, CmdResult.capacityError)
  | Except.ok q1 =>
    let s1 : SessionState := { s with queue := q1 }
    if !s1.is_playing || !s1.is_paused then
      (play_next fetchOk s1, CmdResult.nowPlaying)
    else
      (s1, CmdResult.queuedAt s1.queue.length)

/-- The `pause_command` handler. -/
def pause_command (transportOk : Bool) (s : SessionState) : SessionState × CmdResult :=
  if !s.is_playing || s.is_paused then (s, CmdResult.notPlaying)
  else if transportOk then ({ s with is_paused := true }, CmdResult.ok)
  else (s, CmdResult.transportFailed)

/-- The `resume_command` handler. -/
def resume_command (transportOk : Bool) (s : SessionState) : SessionState × CmdResult :=
  if !s.is_paused then (s, CmdResult.notPlaying)
  else if transportOk then ({ s with is_paused := false }, CmdResult.ok)
  else (s, CmdResult.transportFailed)

/-- The `skip_command` handler: `isAdmin` abstracts the `is_admin` check and
`user` is the acting user's mention string. -/
def skip_command (fetchOk : QueueItem → Bool) (isAdmin : Bool) (user : String)
    (s : SessionState) : SessionState × CmdResult :=
  if !s.is_playing then (s, CmdResult.notPlaying)
  else
    match s.now_playing with
    | some cur =>
      if cur.requested_by ≠ user ∧ !isAdmin then (s, CmdResult.notAuthorized)
      else (play_next fetchOk s, CmdResult.ok)
    | none => (play_next fetchOk s, CmdResult.ok)

/-- The `stop_command` handler: on transport success it clears the two flags
and nothing else (in particular the `now_playing` entry is not deleted). -/
def stop_command (transportOk : Bool) (s : SessionState) : SessionState × CmdResult :=
  if !s.is_playing then (s, CmdResult.notPlaying)
  else if transportOk then
    ({ s with is_playing := false, is_paused := false }, CmdResult.ok)
  else (s, CmdResult.transportFailed)

/-- The `end_command` handler: clears the queue, deletes the now-playing
entry, and resets both flags, in every state (the transport `leave` is
wrapped in a bare try/except and has no state effect either way). -/
def end_command (_s : SessionState) : SessionState × CmdResult :=
  (⟨[], none, false, false⟩, CmdResult.ok)

/-- Integer parses of the colon-separated fields of a duration string;
`none` when some field is not an integer (the `ValueError` of `map(int, ...)`
in the source). -/
def parsedFields (duration : String) : Option (List Int) :=
  (splitOnChar ':' duration.data).mapM (fun p => pyParseInt ⟨p⟩)

/-- The estimated-duration wait computed in `play_next` (source lines
749-763): split the declared duration on `:`; three integer fields are
`h*3600+m*60+s`, two are `m*60+s`, any other field count falls back to 180 —
each followed by `sleep(total + 2)`; a non-integer field in a two- or
three-field string raises inside the `try` and the `except` branch sleeps a
bare 180. -/
def sleepSeconds (duration : String) : Int :=
  let parts := splitOnChar ':' duration.data
  if parts.length = 3 then
    match parsedFields duration with
    | some [h, m, s] => h * 3600 + m * 60 + s + 2
    | _ => 180
  else if parts.length = 2 then
    match parsedFields duration with
    | some [m, s] => m * 60 + s + 2
    | _ => 180
  else
    180 + 2

/-- The five fields `save_data` writes per queued item (source lines
145-151); `added_at` and the now-playing entries are not written. -/
structure SavedItem where
  chat_id : Int
  title : String
  url : String
  duration : String
  requested_by : String
deriving DecidableEq

/-- Projection of a `QueueItem` onto the serialized fields. -/
def save_item (it : QueueItem) : SavedItem :=
  ⟨it.chat_id, it.title, it.url, it.duration, it.requested_by⟩

/-- Reconstruction of a `QueueItem` in `load_data`: the five saved fields,
with `added_at` regenerated from the clock at load time. -/
def load_item (now : Nat) (it : SavedItem) : QueueItem :=
  ⟨it.chat_id, it.title, it.url, it.duration, it.requested_by, now⟩

/-- The `MusicBot` registry slices that `save_data`/`load_data` interact
with: the per-chat queues and the per-chat now-playing entries (dictionaries
embedded as association lists). -/
structure Registry where
  queues : List (Int × List QueueItem)
  now_playing : List (Int × QueueItem)
deriving DecidableEq

/-- `MusicBot.save_data`: the snapshot keyed by `str(chat_id)`, holding the
five fields of every pending item and nothing else. -/
def save_data (b : Registry) : List (String × List SavedItem) :=
  b.queues.map (fun p => (pyStr p.1, p.2.map save_item))

/-- `MusicBot.load_data`: parse each key with `int(chat_id_str)` and rebuild
the `QueueItem` lists; an unparseable key raises, which the embedding
renders as `none`. -/
def load_data (now : Nat) (data : List (String × List SavedItem)) :
    Option (List (Int × List QueueItem)) :=
  data.mapM (fun p => (pyParseInt p.1).map (fun cid => (cid, p.2.map (load_item now))))

/-- Invariant relating the now-playing slot to the playback phase: whenever
the session is playing, the slot is occupied. -/
def NowPlayingInv (s : SessionState) : Prop :=
  s.is_playing = true → s.now_playing.isSome = true

/-- Sample track request used as concrete input in witnesses and
counterexamples. -/
def sample (t : String) (req : String) : QueueItem :=
  ⟨-100123, t, "https://youtube.example/" ++ t, "3:44", req, 0⟩

/-! Helper lemmas: decimal round trip for the `str`/`int` embedding. -/

theorem parseNatAux_append (l1 l2 : List Char) (acc : Nat) :
    parseNatAux (l1 ++ l2) acc =
      (parseNatAux l1 acc).bind (fun m => parseNatAux l2 m) := by
  induction l1 generalizing acc with
  | nil => simp [parseNatAux]
  | cons c cs ih =>
    by_cases h : c.isDigit
    · simp [parseNatAux, h, ih]
    · simp [parseNatAux, h]

theorem digit_char_spec (d : Nat) (h : d < 10) :
    (Char.ofNat (48 + d)).isDigit = true ∧ (Char.ofNat (48 + d)).toNat - 48 = d := by
  interval_cases d <;> exact ⟨by decide, by decide⟩

theorem natChars_cons (n : Nat) :
    ∃ d rest, d < 10 ∧ natChars n = Char.ofNat (48 + d) :: rest := by
  induction n using Nat.strong_induction_on with
  | _ n ih =>
    rw [natChars]
    by_cases h : n < 10
    · exact ⟨n, [], h, by rw [if_pos h]⟩
    · obtain ⟨d, rest, hd, heq⟩ := ih (n / 10) (Nat.div_lt_self (by omega) (by omega))
      exact ⟨d, rest ++ [Char.ofNat (48 + n % 10)], hd, by rw [if_neg h, heq]; rfl⟩

theorem parseNatAux_natChars (n : Nat) : parseNatAux (natChars n) 0 = some n := by
  induction n using Nat.strong_induction_on with
  | _ n ih =>
    rw [natChars]
    by_cases h : n < 10
    · rw [if_pos h]
      interval_cases n <;> decide
    · rw [if_neg h, parseNatAux_append, ih (n / 10) (Nat.div_lt_self (by omega) (by omega))]
      have hm : n % 10 < 10 := Nat.mod_lt _ (by omega)
      obtain ⟨hdig, hval⟩ := digit_char_spec (n % 10) hm
      simp only [Option.bind_some, parseNatAux, hdig, if_pos, hval]
      exact congrArg some (by omega)

theorem parseNat_natChars (n : Nat) : parseNat (natChars n) = some n := by
  obtain ⟨d, rest, _, heq⟩ := natChars_cons n
  rw [heq]
  have hred : parseNat (Char.ofNat (48 + d) :: rest) =
      parseNatAux (Char.ofNat (48 + d) :: rest) 0 := rfl
  rw [hred, ← heq, parseNatAux_natChars]

theorem pyParseInt_cons (c : Char) (cs : List Char) :
    pyParseInt ⟨c :: cs⟩ =
      if c = '-' then (parseNat cs).map (fun v => -(v : Int))
      else if c = '+' then (parseNat cs).map (fun v => (v : Int))
      else (parseNat (c :: cs)).map (fun v => (v : Int)) := rfl

theorem pyParseInt_pyStr (n : Int) : pyParseInt (pyStr n) = some n := by
  obtain ⟨d, rest, hd, heq⟩ := natChars_cons n.natAbs
  by_cases h : n < 0
  · have hstr : pyStr n = ⟨'-' :: natChars n.natAbs⟩ := by rw [pyStr, if_pos h]
    rw [hstr, pyParseInt_cons, if_pos rfl, parseNat_natChars]
    exact congrArg some (show -((n.natAbs : Int)) = n by omega)
  · have hstr : pyStr n = ⟨natChars n.natAbs⟩ := by rw [pyStr, if_neg h]
    have hminus : Char.ofNat (48 + d) ≠ '-' := by interval_cases d <;> decide
    have hplus : Char.ofNat (48 + d) ≠ '+' := by interval_cases d <;> decide
    rw [hstr, heq, pyParseInt_cons, if_neg hminus, if_neg hplus, ← heq, parseNat_natChars]
    exact congrArg some (show ((n.natAbs : Int)) = n by omega)

/-! Helper lemmas about the advance loop. -/

theorem play_next_loop_inv (fetchOk : QueueItem → Bool) (l : List QueueItem) :
    ∀ s : SessionState, NowPlayingInv (play_next_loop fetchOk l s) := by
  induction l with
  | nil =>
    intro s h
    simp [play_next_loop] at h
  | cons q rest ih =>
    intro s
    simp only [play_next_loop]
    by_cases hf : fetchOk q
    · rw [if_pos hf]
      intro _
      rfl
    · rw [if_neg hf]
      exact ih _

theorem play_next_loop_all_fail (fetchOk : QueueItem → Bool) (l : List QueueItem) :
    ∀ s : SessionState, s.queue = l → (∀ i ∈ l, fetchOk i = false) →
      (play_next_loop fetchOk l s).is_playing = false ∧
      (play_next_loop fetchOk l s).queue = [] := by
  induction l with
  | nil =>
    intro s hq _
    exact ⟨rfl, hq⟩
  | cons q rest ih =>
    intro s hq hall
    have hf : fetchOk q = false := hall q (by simp)
    simp only [play_next_loop, hf, Bool.false_eq_true, if_false]
    exact ih ⟨rest, some q, true, false⟩ rfl (fun i hi => hall i (List.mem_cons_of_mem _ hi))

theorem play_next_loop_first_ok (fetchOk : QueueItem → Bool) (q1 : List QueueItem) :
    ∀ (i : QueueItem) (q2 : List QueueItem) (s : SessionState),
      (∀ j ∈ q1, fetchOk j = false) → fetchOk i = true →
      play_next_loop fetchOk (q1 ++ i :: q2) s = ⟨q2, some i, true, false⟩ := by
  induction q1 with
  | nil =>
    intro i q2 s _ hi
    simp [play_next_loop, hi]
  | cons j q1 ih =>
    intro i q2 s hall hi
    have hj : fetchOk j = false := hall j (by simp)
    simp only [List.cons_append, play_next_loop, hj, Bool.false_eq_true, if_false]
    exact ih i q2 _ (fun x hx => hall x (List.mem_cons_of_mem _ hx)) hi

theorem mapM_some_length {α β : Type} (f : α → Option β) :
    ∀ (l : List α) (r : List β), l.mapM f = some r → r.length = l.length := by
  intro l
  induction l with
  | nil =>
    intro r h
    simp only [List.mapM_nil, Option.pure_def, Option.some.injEq] at h
    simp [← h]
  | cons a l ih =>
    intro r h
    simp only [List.mapM_cons, Option.pure_def, Option.bind_eq_bind, Option.bind_eq_some] at h
    obtain ⟨b, _, r1, hr1, hr⟩ := h
    injection hr with hr2
    simp [← hr2, ih r1 hr1]

/-! Claim theorems. -/

/-- C1: the claim says that a play command arriving while the session is
streaming (playing and not paused) only appends to the queue, leaving the
playback state and the now-playing item unchanged, with the state machine
kicked only when idle.  The code instead guards the kick with
`not is_playing or not is_paused`, which is true during normal streaming
(contradicting its own comment, which reads: if nothing is playing, start
playing).  Concretely: while streaming "Believer" with an empty pending
queue, a play for "LoseYourself" runs `play_next`, which immediately pops
the new item — the queue stays at length 0 instead of growing to 1, and the
now-playing slot is replaced. -/
theorem c1_play_while_streaming_replaces_track :
    play_command (fun _ => true) (sample "LoseYourself" "userB")
        ⟨[], some (sample "Believer" "userA"), true, false⟩
      = (⟨[], some (sample "LoseYourself" "userB"), true, false⟩, CmdResult.nowPlaying)
    ∧ (play_command (fun _ => true) (sample "LoseYourself" "userB")
        ⟨[], some (sample "Believer" "userA"), true, false⟩).1.queue.length ≠ 1
    ∧ (play_command (fun _ => true) (sample "LoseYourself" "userB")
        ⟨[], some (sample "Believer" "userA"), true, false⟩).1.now_playing
      ≠ some (sample "Believer" "userA") :=
  ⟨rfl, by decide, by decide⟩

/-- C2: the claim says a second stream-finished signal for an item that is
no longer now-playing is a no-op (idempotent advance).  The code routes both
the transport's stream-end event and the estimated-duration timer into bare
`play_next` calls with no guard on the now-playing identity, so two signals
for the same item execute two advances.  Concretely: with "trackA" playing
and queue ["trackB", "trackC"], the first signal correctly advances to
"trackB"; the second signal advances again to "trackC", skipping "trackB"
instead of being a no-op. -/
theorem c2_double_stream_end_double_advance :
    play_next (fun _ => true)
        ⟨[sample "trackB" "u", sample "trackC" "u"], some (sample "trackA" "u"), true, false⟩
      = ⟨[sample "trackC" "u"], some (sample "trackB" "u"), true, false⟩
    ∧ play_next (fun _ => true)
        (play_next (fun _ => true)
          ⟨[sample "trackB" "u", sample "trackC" "u"], some (sample "trackA" "u"), true, false⟩)
      = ⟨[], some (sample "trackC" "u"), true, false⟩ :=
  ⟨rfl, rfl⟩

/-- C3 counterexample: the claim says the now-playing slot is empty iff the
session phase is Idle and that every operation preserves this.  Stopping a
streaming session makes it Idle (`is_playing` false) but leaves the
now-playing entry in place, so an Idle session can have a nonempty slot. -/
theorem c3_counterexample :
    (stop_command true ⟨[], some (sample "Believer" "userA"), true, false⟩).1.is_playing = false
    ∧ (stop_command true ⟨[], some (sample "Believer" "userA"), true, false⟩).1.now_playing
      ≠ none :=
  ⟨rfl, by decide⟩

/-- C3 (amended): every reachable state holds at most one now-playing item
(the slot is a single optional value by construction), and every operation
preserves the direction "playing implies the slot is occupied" — so a
Streaming session always has exactly one now-playing item.  The converse
direction of the claim is dropped: stop and queue-exhausted advances leave
the stale item in the slot, so Idle does not imply an empty slot. -/
theorem c3_now_playing_invariant_preserved (fetchOk : QueueItem → Bool)
    (transportOk isAdmin : Bool) (user : String) (item : QueueItem)
    (s : SessionState) (hs : NowPlayingInv s) :
    NowPlayingInv (play_next fetchOk s)
    ∧ NowPlayingInv (play_command fetchOk item s).1
    ∧ NowPlayingInv (pause_command transportOk s).1
    ∧ NowPlayingInv (resume_command transportOk s).1
    ∧ NowPlayingInv (skip_command fetchOk isAdmin user s).1
    ∧ NowPlayingInv (stop_command transportOk s).1
    ∧ NowPlayingInv (end_command s).1 := by
  refine ⟨play_next_loop_inv fetchOk s.queue s, ?_, ?_, ?_, ?_, ?_, ?_⟩
  · cases henq : enqueue item s.queue with
    | error e =>
      simp only [play_command, henq]
      exact hs
    | ok q1 =>
      simp only [play_command, henq]
      by_cases hb : (!({ s with queue := q1 } : SessionState).is_playing
          || !({ s with queue := q1 } : SessionState).is_paused) = true
      · rw [if_pos hb]
        exact play_next_loop_inv fetchOk _ _
      · rw [if_neg hb]
        exact fun h => hs h
  · unfold pause_command
    split
    · exact hs
    · split
      · exact fun h => hs h
      · exact hs
  · unfold resume_command
    split
    · exact hs
    · split
      · exact fun h => hs h
      · exact hs
  · unfold skip_command
    split
    · exact hs
    · split
      · split
        · exact hs
        · exact play_next_loop_inv fetchOk _ _
      · exact play_next_loop_inv fetchOk _ _
  · unfold stop_command
    split
    · exact hs
    · split
      · intro h
        simp at h
      · exact hs
  · intro h
    simp [end_command] at h

/-- C3 witness: the invariant theorem applied to a concrete streaming
session. -/
theorem c3_witness :
    NowPlayingInv ⟨[], some (sample "w" "u"), true, false⟩
    ∧ (NowPlayingInv (play_next (fun _ => true) ⟨[], some (sample "w" "u"), true, false⟩)
      ∧ NowPlayingInv (play_command (fun _ => true) (sample "s" "u")
          ⟨[], some (sample "w" "u"), true, false⟩).1
      ∧ NowPlayingInv (pause_command true ⟨[], some (sample "w" "u"), true, false⟩).1
      ∧ NowPlayingInv (resume_command true ⟨[], some (sample "w" "u"), true, false⟩).1
      ∧ NowPlayingInv (skip_command (fun _ => true) true "u"
          ⟨[], some (sample "w" "u"), true, false⟩).1
      ∧ NowPlayingInv (stop_command true ⟨[], some (sample "w" "u"), true, false⟩).1
      ∧ NowPlayingInv (end_command ⟨[], some (sample "w" "u"), true, false⟩).1) :=
  ⟨fun _ => rfl,
    c3_now_playing_invariant_preserved (fun _ => true) true true "u" (sample "s" "u")
      ⟨[], some (sample "w" "u"), true, false⟩ (fun _ => rfl)⟩

/-- C4: enqueuing into a full queue (the configured maximum is 100) returns
the capacity error and leaves the session — in particular the queue, its
elements and their order — completely unchanged; below the maximum the item
is appended at the tail. -/
theorem c4_capacity_bound (fetchOk : QueueItem → Bool) (item : QueueItem) (s : SessionState) :
    (s.queue.length ≥ Config.MAX_QUEUE_SIZE →
      enqueue item s.queue = Except.error ()
      ∧ play_command fetchOk item s = (s, CmdResult.capacityError))
    ∧ (s.queue.length < Config.MAX_QUEUE_SIZE →
      enqueue item s.queue = Except.ok (s.queue ++ [item])) := by
  constructor
  · intro h
    have he : enqueue item s.queue = Except.error () := by
      simp only [enqueue]
      rw [if_pos h]
    refine ⟨he, ?_⟩
    simp only [play_command, he]
  · intro h
    simp only [enqueue]
    rw [if_neg (Nat.not_le.mpr h)]

/-- C4 witness: the bound theorem applied to a full queue of 100 items and
to an empty queue. -/
theorem c4_witness :
    (enqueue (sample "y" "u") (List.replicate 100 (sample "x" "u")) = Except.error ()
      ∧ play_command (fun _ => true) (sample "y" "u")
          ⟨List.replicate 100 (sample "x" "u"), none, false, false⟩
        = (⟨List.replicate 100 (sample "x" "u"), none, false, false⟩, CmdResult.capacityError))
    ∧ enqueue (sample "y" "u") [] = Except.ok [sample "y" "u"] := by
  constructor
  · exact (c4_capacity_bound (fun _ => true) (sample "y" "u")
      ⟨List.replicate 100 (sample "x" "u"), none, false, false⟩).1
      (by simp [Config.MAX_QUEUE_SIZE])
  · exact (c4_capacity_bound (fun _ => true) (sample "y" "u") ⟨[], none, false, false⟩).2
      (by simp [Config.MAX_QUEUE_SIZE])

/-- C5 counterexample: the claim says stop clears the now-playing slot.  In
the code `stop_command` only resets the two flags; the now-playing entry
survives. -/
theorem c5_counterexample :
    (stop_command true
        ⟨[sample "queuedTrack" "userB"], some (sample "currentTrack" "userA"), true, false⟩).1.now_playing
      = some (sample "currentTrack" "userA") :=
  rfl

/-- C5 (amended): for a playing session, stop (with the transport disconnect
succeeding) resets `is_playing` and `is_paused` — the session reads as Idle —
and leaves the pending queue exactly as it was; however the now-playing slot
is not cleared, it retains the last item. -/
theorem c5_stop_preserves_queue_and_slot (s : SessionState) (h : s.is_playing = true) :
    stop_command true s = ({ s with is_playing := false, is_paused := false }, CmdResult.ok)
    ∧ (stop_command true s).1.queue = s.queue
    ∧ (stop_command true s).1.now_playing = s.now_playing := by
  have hst : stop_command true s
      = ({ s with is_playing := false, is_paused := false }, CmdResult.ok) := by
    unfold stop_command
    rw [h]
    rfl
  exact ⟨hst, by rw [hst], by rw [hst]⟩

/-- C5 witness: the amended stop theorem applied to a concrete streaming
session with one queued item. -/
theorem c5_witness :
    (⟨[sample "pending" "userB"], some (sample "live" "userA"), true, false⟩
        : SessionState).is_playing = true
    ∧ (stop_command true ⟨[sample "pending" "userB"], some (sample "live" "userA"), true, false⟩
        = (⟨[sample "pending" "userB"], some (sample "live" "userA"), false, false⟩, CmdResult.ok)
      ∧ (stop_command true
          ⟨[sample "pending" "userB"], some (sample "live" "userA"), true, false⟩).1.queue
        = [sample "pending" "userB"]
      ∧ (stop_command true
          ⟨[sample "pending" "userB"], some (sample "live" "userA"), true, false⟩).1.now_playing
        = some (sample "live" "userA")) :=
  ⟨rfl,
    c5_stop_preserves_queue_and_slot
      ⟨[sample "pending" "userB"], some (sample "live" "userA"), true, false⟩ rfl⟩

/-- C6: the end command, from any session state, leaves the session Idle
with the now-playing slot cleared and the queue emptied. -/
theorem c6_end_clears_everything (s : SessionState) :
    (end_command s).1.queue = []
    ∧ (end_command s).1.now_playing = none
    ∧ (end_command s).1.is_playing = false
    ∧ (end_command s).1.is_paused = false
    ∧ (end_command s).2 = CmdResult.ok :=
  ⟨rfl, rfl, rfl, rfl, rfl⟩

/-- C7: the advance routine consumes one queued item per fetch failure and
is bounded by queue exhaustion: if every queued item fails to fetch the
routine terminates with the session not playing and the queue empty, and if
the queue splits as a failing prefix followed by a fetchable item, the
session ends up streaming that item with the failing prefix discarded and
the remainder still queued. -/
theorem c7_advance_bounded_by_queue (fetchOk : QueueItem → Bool) (s : SessionState) :
    ((∀ i ∈ s.queue, fetchOk i = false) →
      (play_next fetchOk s).is_playing = false ∧ (play_next fetchOk s).queue = [])
    ∧ (∀ q1 i q2, s.queue = q1 ++ i :: q2 →
      (∀ j ∈ q1, fetchOk j = false) → fetchOk i = true →
      play_next fetchOk s = ⟨q2, some i, true, false⟩) := by
  constructor
  · intro hall
    exact play_next_loop_all_fail fetchOk s.queue s rfl hall
  · intro q1 i q2 hq h1 hi
    unfold play_next
    rw [hq]
    exact play_next_loop_first_ok fetchOk q1 i q2 s h1 hi

/-- C7 witness: a queue of three items where the fetch fails for the first
and succeeds for the second: the session ends up streaming the second item,
the first is discarded, the third remains queued. -/
theorem c7_witness :
    play_next (fun it => it.title != "one")
        ⟨[sample "one" "u", sample "two" "u", sample "three" "u"], none, false, false⟩
      = ⟨[sample "three" "u"], some (sample "two" "u"), true, false⟩ :=
  (c7_advance_bounded_by_queue (fun it => it.title != "one")
      ⟨[sample "one" "u", sample "two" "u", sample "three" "u"], none, false, false⟩).2
    [sample "one" "u"] (sample "two" "u") [sample "three" "u"] rfl (by decide) (by decide)

/-- C8: the estimated-end wait for a declared duration string: three
colon-separated integer fields give hours*3600+minutes*60+seconds plus the
2-second safety buffer, two fields give minutes*60+seconds plus the buffer,
any other field count falls back to the fixed 3-minute window (plus the same
buffer, 182 total), and a two- or three-field string whose fields are not
all integers raises in the parser and sleeps the bare 3-minute window of
180 seconds. -/
theorem c8_duration_timer (d : String) :
    (∀ h m s : Int, parsedFields d = some [h, m, s] →
      sleepSeconds d = h * 3600 + m * 60 + s + 2)
    ∧ (∀ m s : Int, parsedFields d = some [m, s] →
      sleepSeconds d = m * 60 + s + 2)
    ∧ ((splitOnChar ':' d.data).length ≠ 2 → (splitOnChar ':' d.data).length ≠ 3 →
      sleepSeconds d = 182)
    ∧ (parsedFields d = none →
      (splitOnChar ':' d.data).length = 2 ∨ (splitOnChar ':' d.data).length = 3 →
      sleepSeconds d = 180) := by
  refine ⟨?_, ?_, ?_, ?_⟩
  · intro h m s hmap
    have hlen : (splitOnChar ':' d.data).length = 3 := by
      have := mapM_some_length _ _ _ hmap
      simpa using this.symm
    simp [sleepSeconds, hlen, hmap]
  · intro m s hmap
    have hlen : (splitOnChar ':' d.data).length = 2 := by
      have := mapM_some_length _ _ _ hmap
      simpa using this.symm
    simp [sleepSeconds, hlen, hmap]
  · intro h2 h3
    simp [sleepSeconds, h2, h3]
  · intro hnone hlen
    rcases hlen with h2 | h3
    · simp [sleepSeconds, h2, hnone]
    · simp [sleepSeconds, h3, hnone]

/-- C8 witness: the timer theorem evaluated on the concrete durations
"1:02:03", "3:44", "abc" (one field, fallback window plus buffer) and "a:b"
(two non-integer fields, bare fallback window). -/
theorem c8_witness :
    sleepSeconds "1:02:03" = 1 * 3600 + 2 * 60 + 3 + 2
    ∧ sleepSeconds "3:44" = 3 * 60 + 44 + 2
    ∧ sleepSeconds "abc" = 182
    ∧ sleepSeconds "a:b" = 180 :=
  ⟨(c8_duration_timer "1:02:03").1 1 2 3 (by decide),
    (c8_duration_timer "3:44").2.1 3 44 (by decide),
    (c8_duration_timer "abc").2.2.1 (by decide) (by decide),
    (c8_duration_timer "a:b").2.2.2 (by decide) (Or.inl (by decide))⟩

/-- C9: pause when nothing is playing or already paused, resume when not
paused, and skip or stop when nothing is playing, each return the
not-playing failure and leave the session state (queue, now-playing slot and
both flags) exactly unchanged. -/
theorem c9_precondition_failures_unchanged (transportOk : Bool) (fetchOk : QueueItem → Bool)
    (isAdmin : Bool) (user : String) (s : SessionState) :
    ((s.is_playing = false ∨ s.is_paused = true) →
      pause_command transportOk s = (s, CmdResult.notPlaying))
    ∧ (s.is_paused = false → resume_command transportOk s = (s, CmdResult.notPlaying))
    ∧ (s.is_playing = false → skip_command fetchOk isAdmin user s = (s, CmdResult.notPlaying))
    ∧ (s.is_playing = false → stop_command transportOk s = (s, CmdResult.notPlaying)) := by
  refine ⟨?_, ?_, ?_, ?_⟩
  · intro h
    rcases h with h | h <;> simp [pause_command, h]
  · intro h
    simp [resume_command, h]
  · intro h
    simp [skip_command, h]
  · intro h
    simp [stop_command, h]

/-- C9 witness: the precondition theorem applied to an idle session, where
all four preconditions fail at once. -/
theorem c9_witness :
    pause_command true ⟨[sample "p" "u"], none, false, false⟩
      = (⟨[sample "p" "u"], none, false, false⟩, CmdResult.notPlaying)
    ∧ resume_command true ⟨[sample "p" "u"], none, false, false⟩
      = (⟨[sample "p" "u"], none, false, false⟩, CmdResult.notPlaying)
    ∧ skip_command (fun _ => true) true "u" ⟨[sample "p" "u"], none, false, false⟩
      = (⟨[sample "p" "u"], none, false, false⟩, CmdResult.notPlaying)
    ∧ stop_command true ⟨[sample "p" "u"], none, false, false⟩
      = (⟨[sample "p" "u"], none, false, false⟩, CmdResult.notPlaying) :=
  ⟨(c9_precondition_failures_unchanged true (fun _ => true) true "u"
      ⟨[sample "p" "u"], none, false, false⟩).1 (Or.inl rfl),
    (c9_precondition_failures_unchanged true (fun _ => true) true "u"
      ⟨[sample "p" "u"], none, false, false⟩).2.1 rfl,
    (c9_precondition_failures_unchanged true (fun _ => true) true "u"
      ⟨[sample "p" "u"], none, false, false⟩).2.2.1 rfl,
    (c9_precondition_failures_unchanged true (fun _ => true) true "u"
      ⟨[sample "p" "u"], none, false, false⟩).2.2.2 rfl⟩

/-- C10: the snapshot written by `save_data` ignores the now-playing
entries, and loading it back with `load_data` reconstructs, per session
identifier, a queue of the same length and order whose items carry the same
five saved fields, with the creation timestamp regenerated from the clock at
load time. -/
theorem c10_save_load_roundtrip (now : Nat) (b : Registry)
    (np : List (Int × QueueItem)) :
    save_data { b with now_playing := np } = save_data b
    ∧ load_data now (save_data b)
      = some (b.queues.map (fun p => (p.1, p.2.map (fun it => { it with added_at := now })))) := by
  refine ⟨rfl, ?_⟩
  unfold save_data load_data
  induction b.queues with
  | nil => rfl
  | cons p l ih =>
    simp only [List.map_cons, List.mapM_cons, pyParseInt_pyStr, Option.pure_def,
      Option.bind_eq_bind, Option.some_bind, Option.map_some]
    simp only [Option.bind_eq_bind] at ih
    rw [ih]
    simp [List.map_map]
    exact fun a _ => rfl

end MusicModel

